import Mathlib

/-!
Verification of the core logic of `forward-optimal` (src/main.rs), a
latency-aware TCP forwarder.  The probing/scoring arithmetic, the
minimum-score selection, the shared-state update and accept decisions, and
the PROXY protocol v2 header builder are embedded as executable Lean
definitions; machine integers (`u128`, `u16`, `u32`) are represented as
`Nat`, with explicit `% 2^w` reductions where the source can wrap.
-/

namespace ForwardOptimal

/-- `PROBE_COUNT` from src/main.rs line 45: probe attempts per target per round. -/
def PROBE_COUNT : Nat := 10

/-- `PENALTY_MS` from src/main.rs line 46: latency penalty (ms) per failed probe. -/
def PENALTY_MS : Nat := 300

/-- A resolved socket address (`std::net::SocketAddr`): the IP as its octet
list (4 octets for V4, 16 for V6, mirroring `Ipv4Addr::octets` /
`Ipv6Addr::octets`) and the port as a `u16` value. -/
inductive SocketAddr where
  | v4 (ip : List Nat) (port : Nat)
  | v6 (ip : List Nat) (port : Nat)
deriving DecidableEq

/-- `BestTarget` from src/main.rs lines 33-38. -/
structure BestTarget where
  addr : SocketAddr
  name : String
  score : Nat
deriving DecidableEq

/-- The probe loop of `perform_scoring_check` (src/main.rs lines 129-150):
each list entry is one attempt, `some rtt` on success (elapsed milliseconds)
and `none` on timeout or connection error.  Returns
`(valid_rtt_sum, success_count)`; the `min_ms`/`max_ms` accumulators feed
only the log line and are not modelled. -/
def runProbes (probes : List (Option Nat)) : Nat × Nat :=
  probes.foldl
    (fun acc res =>
      match res with
      | some rtt => (acc.1 + rtt, acc.2 + 1)
      | none => acc)
    (0, 0)

/-- The per-target tail of `perform_scoring_check` (src/main.rs lines
152-173): `None` when no attempt succeeded, otherwise
`some (final_score, avg_ms)` with
`final_score = (valid_rtt_sum + fail_count * PENALTY_MS) / PROBE_COUNT` and
`avg_ms = valid_rtt_sum / success_count` (integer division on `u128`). -/
def perTargetCheck (probes : List (Option Nat)) : Option (Nat × Nat) :=
  let acc := runProbes probes
  let valid_rtt_sum := acc.1
  let success_count := acc.2
  if success_count = 0 then
    none
  else
    let fail_count := PROBE_COUNT - success_count
    let final_score := (valid_rtt_sum + fail_count * PENALTY_MS) / PROBE_COUNT
    let avg_ms := valid_rtt_sum / success_count
    some (final_score, avg_ms)

/-- The score a target contributes to selection (the `score` field of the
`BestTarget` built at src/main.rs line 172), `none` when unreachable. -/
def scoreTarget (probes : List (Option Nat)) : Option Nat :=
  (perTargetCheck probes).map Prod.fst

/-- One step of Rust's `Iterator::min_by_key` reduction (src/main.rs line
178): the accumulator is replaced only when the next element's key is
strictly smaller, so on a tie the earlier element is kept. -/
def selStep (acc next : BestTarget) : BestTarget :=
  if acc.score > next.score then next else acc

/-- `min_by_key(|n| n.score)` over a list (src/main.rs line 178): Rust's
`min_by` reduces with the first element as the initial accumulator and
returns the first of equally minimal elements. -/
def min_by_score : List BestTarget → Option BestTarget
  | [] => none
  | t :: ts => some (ts.foldl selStep t)

/-- The fan-in of `perform_scoring_check` (src/main.rs lines 177-178):
given the per-target results in configuration order (`join_all` preserves
order), `.flatten()` drops the `None`s and `min_by_key` picks the winner. -/
def perform_scoring_check (results : List (Option BestTarget)) : Option BestTarget :=
  min_by_score (results.filterMap id)

/-- The background round's write to `State.best` (src/main.rs lines 75-93):
a round winner replaces the stored value, an empty round leaves it alone. -/
def update_best (best : Option BestTarget) (winner : Option BestTarget) :
    Option BestTarget :=
  match winner with
  | some w => some w
  | none => best

/-- What the accept loop does with one connection. -/
inductive AcceptAction where
  | drop
  | forward (target : BestTarget)
deriving DecidableEq

/-- The accept-loop body (src/main.rs lines 103-113): a snapshot of
`state.best` is taken; only `Some` spawns `handle_forward`, `None` lets the
client stream fall out of scope. -/
def accept_step (snapshot : Option BestTarget) : AcceptAction :=
  match snapshot with
  | some t => AcceptAction.forward t
  | none => AcceptAction.drop

/-- Big-endian bytes of a `u16` value (`u16::to_be_bytes`); the `% 256`
keeps the embedding total on all of `Nat`. -/
def u16be (p : Nat) : List Nat := [p / 256 % 256, p % 256]

/-- The 12-byte PROXY v2 signature pushed at src/main.rs line 203. -/
def proxy_v2_signature : List Nat :=
  [0x0D, 0x0A, 0x0D, 0x0A, 0x00, 0x0D, 0x0A, 0x51, 0x55, 0x49, 0x54, 0x0A]

/-- `build_proxy_v2_header` (src/main.rs lines 201-228): signature, version
byte `0x21`, then per family the family/transport byte, big-endian length
and payload; mismatched families hit the `_` arm with family byte `0x00`
and length `0`.  The appends are grouped so the fixed 16-byte head is one
prefix; `++` is associative, so the byte sequence is the source's. -/
def build_proxy_v2_header (src dst : SocketAddr) : List Nat :=
  match src, dst with
  | SocketAddr.v4 sip sp, SocketAddr.v4 dip dp =>
      (proxy_v2_signature ++ [0x21, 0x11] ++ u16be 12) ++
        (sip ++ dip ++ u16be sp ++ u16be dp)
  | SocketAddr.v6 sip sp, SocketAddr.v6 dip dp =>
      (proxy_v2_signature ++ [0x21, 0x21] ++ u16be 36) ++
        (sip ++ dip ++ u16be sp ++ u16be dp)
  | _, _ => proxy_v2_signature ++ [0x21, 0x00] ++ u16be 0

/-- Value of a 2-byte big-endian field. -/
def be2 : List Nat → Nat
  | [a, b] => a * 256 + b
  | _ => 0

/-- Decoder for the IPv4 payload of a v2 header: source IP at bytes 16-19,
destination IP at 20-23, big-endian ports at 24-25 and 26-27. -/
def decode_v4 (h : List Nat) : List Nat × List Nat × Nat × Nat :=
  ((h.drop 16).take 4, (h.drop 20).take 4,
    be2 ((h.drop 24).take 2), be2 ((h.drop 26).take 2))

/-- Decoder for the IPv6 payload of a v2 header: source IP at bytes 16-31,
destination IP at 32-47, big-endian ports at 48-49 and 50-51. -/
def decode_v6 (h : List Nat) : List Nat × List Nat × Nat × Nat :=
  ((h.drop 16).take 16, (h.drop 32).take 16,
    be2 ((h.drop 48).take 2), be2 ((h.drop 50).take 2))

/-- The header-writing decision of `handle_forward` (src/main.rs lines
187-194): the bytes written to the server before any client bytes are
relayed.  `peer` is the result of `client.peer_addr()` (`none` on error). -/
def header_written (proxy_protocol : Option String) (peer : Option SocketAddr)
    (dst : SocketAddr) : List Nat :=
  match proxy_protocol with
  | some proto =>
      if proto = "v2" then
        match peer with
        | some src => build_proxy_v2_header src dst
        | none => []
      else []
  | none => []

lemma runProbes_foldl (probes : List (Option Nat)) : ∀ s c : Nat,
    probes.foldl
      (fun acc res =>
        match res with
        | some rtt => (acc.1 + rtt, acc.2 + 1)
        | none => acc)
      (s, c)
      = (s + (probes.filterMap id).sum, c + (probes.filterMap id).length) := by
  induction probes with
  | nil => intro s c; simp
  | cons hd tl ih =>
    intro s c
    cases hd with
    | none => simp [List.filterMap_cons, ih s c]
    | some rtt =>
      simp only [List.foldl_cons, List.filterMap_cons, ih (s + rtt) (c + 1),
        List.sum_cons, List.length_cons, id]
      refine Prod.ext ?_ ?_ <;> simp <;> omega

lemma runProbes_eq (probes : List (Option Nat)) :
    runProbes probes = ((probes.filterMap id).sum, (probes.filterMap id).length) := by
  simpa [runProbes] using runProbes_foldl probes 0 0

lemma length_filterMap_add_countNone (l : List (Option Nat)) :
    (l.filterMap id).length + l.countP (fun o => o.isNone) = l.length := by
  induction l with
  | nil => simp
  | cons hd tl ih =>
    cases hd <;> simp [List.filterMap_cons, List.countP_cons, ← ih] <;> omega

/-- A sample target used by concrete witnesses. -/
def tgtA : BestTarget :=
  { addr := SocketAddr.v4 [10, 0, 0, 1] 8080, name := "a", score := 20 }

/-- A second sample target with the same score as `tgtA`. -/
def tgtB : BestTarget :=
  { addr := SocketAddr.v4 [10, 0, 0, 2] 8080, name := "b", score := 20 }

/-- C1: in a probing round, a target with at least one successful probe out
of the `PROBE_COUNT = 10` attempts scores
`(sum of successful elapsed ms + failureCount * PENALTY_MS) / PROBE_COUNT`,
and a target whose attempts all fail produces no score at all (`none`, not
an infinite score). -/
theorem scorer_score_formula (probes : List (Option Nat))
    (hlen : probes.length = PROBE_COUNT) :
    (scoreTarget probes = none ↔ ∀ o ∈ probes, o = none) ∧
    ((∃ o ∈ probes, o ≠ none) →
      scoreTarget probes =
        some (((probes.filterMap id).sum
          + probes.countP (fun o => o.isNone) * PENALTY_MS) / PROBE_COUNT)) := by
  have hcount := length_filterMap_add_countNone probes
  have hB : (probes.filterMap id).length = 0 ↔ ∀ o ∈ probes, o = none := by
    rw [List.length_eq_zero, List.filterMap_eq_nil_iff]
    simp
  constructor
  · rw [← hB]
    by_cases hc : (probes.filterMap id).length = 0 <;>
      simp [scoreTarget, perTargetCheck, runProbes_eq, hc]
  · intro hex
    have hc : (probes.filterMap id).length ≠ 0 := by
      intro h0
      obtain ⟨o, ho, hne⟩ := hex
      exact hne (hB.mp h0 o ho)
    have hfail : PROBE_COUNT - (probes.filterMap id).length
        = probes.countP (fun o => o.isNone) := by omega
    simp [scoreTarget, perTargetCheck, runProbes_eq, hc, hfail]

/-- Witness for C1 at a concrete round: two successes (5 ms and 7 ms) and
eight failures give `(12 + 8 * 300) / 10 = 241`. -/
theorem scorer_score_formula_witness :
    scoreTarget [some 5, some 7, none, none, none, none, none, none, none, none]
      = some 241 := by
  have h := (scorer_score_formula
    [some 5, some 7, none, none, none, none, none, none, none, none]
    (by decide)).2 (by decide)
  rw [h]
  decide

/-- C7: with the sum of successful elapsed times fixed, the score is
strictly increasing in the number of failed attempts: `k + 1` failures
(hence `9 - k` successes) score strictly more than `k` failures. -/
theorem score_strictly_increasing_in_failures (rtts1 rtts2 : List Nat) (k : Nat)
    (hk : k ≤ 8) (h1 : rtts1.length = 9 - k) (h2 : rtts2.length = 10 - k)
    (hsum : rtts1.sum = rtts2.sum) :
    ∃ a b,
      scoreTarget (rtts1.map some ++ List.replicate (k + 1) none) = some a ∧
      scoreTarget (rtts2.map some ++ List.replicate k none) = some b ∧
      b < a := by
  have e1 : ((rtts1.map some ++ List.replicate (k + 1) none).filterMap id)
      = rtts1 := by simp
  have e2 : ((rtts2.map some ++ List.replicate k none).filterMap id)
      = rtts2 := by simp
  refine ⟨(rtts1.sum + (PROBE_COUNT - rtts1.length) * PENALTY_MS) / PROBE_COUNT,
    (rtts2.sum + (PROBE_COUNT - rtts2.length) * PENALTY_MS) / PROBE_COUNT,
    ?_, ?_, ?_⟩
  · have hne : rtts1.length ≠ 0 := by omega
    simp [scoreTarget, perTargetCheck, runProbes_eq, e1, hne]
  · have hne : rtts2.length ≠ 0 := by omega
    simp [scoreTarget, perTargetCheck, runProbes_eq, e2, hne]
  · rw [hsum, h1, h2]
    simp only [PROBE_COUNT, PENALTY_MS]
    omega

/-- Witness for C7: successes summing to 12 ms score 61 with 2 failures
and 31 with 1 failure. -/
theorem score_strictly_increasing_in_failures_witness :
    ∃ a b,
      scoreTarget ([5, 1, 1, 1, 1, 1, 1, 1].map some
        ++ List.replicate 2 none) = some a ∧
      scoreTarget ([4, 1, 1, 1, 1, 1, 1, 1, 1].map some
        ++ List.replicate 1 none) = some b ∧
      b < a :=
  score_strictly_increasing_in_failures [5, 1, 1, 1, 1, 1, 1, 1]
    [4, 1, 1, 1, 1, 1, 1, 1, 1] 1 (by decide) (by decide) (by decide) (by decide)

/-- C10: all score arithmetic is exact unsigned integer arithmetic with
truncating division: the score is the floor of
`(sum + failCount * 300) / 10` and the logged average latency is the floor
of `sum / successCount`, characterised by the usual floor bounds. -/
theorem scorer_integer_arithmetic (probes : List (Option Nat)) (q a : Nat)
    (hlen : probes.length = PROBE_COUNT)
    (hq : perTargetCheck probes = some (q, a)) :
    0 < (probes.filterMap id).length ∧
    q = ((probes.filterMap id).sum
      + probes.countP (fun o => o.isNone) * PENALTY_MS) / PROBE_COUNT ∧
    a = (probes.filterMap id).sum / (probes.filterMap id).length ∧
    PROBE_COUNT * q ≤ (probes.filterMap id).sum
      + probes.countP (fun o => o.isNone) * PENALTY_MS ∧
    (probes.filterMap id).sum + probes.countP (fun o => o.isNone) * PENALTY_MS
      < PROBE_COUNT * (q + 1) ∧
    (probes.filterMap id).length * a ≤ (probes.filterMap id).sum ∧
    (probes.filterMap id).sum < (probes.filterMap id).length * (a + 1) := by
  have hcount := length_filterMap_add_countNone probes
  have hkey : perTargetCheck probes =
      if (probes.filterMap id).length = 0 then none
      else some (((probes.filterMap id).sum
          + (PROBE_COUNT - (probes.filterMap id).length) * PENALTY_MS)
            / PROBE_COUNT,
        (probes.filterMap id).sum / (probes.filterMap id).length) := by
    simp only [perTargetCheck, runProbes_eq]
  by_cases hc : (probes.filterMap id).length = 0
  · rw [hkey, if_pos hc] at hq
    cases hq
  · rw [hkey, if_neg hc] at hq
    have hpair := Option.some.inj hq
    have hfail : probes.countP (fun o => o.isNone)
        = PROBE_COUNT - (probes.filterMap id).length := by omega
    have hqv : q = ((probes.filterMap id).sum
        + (PROBE_COUNT - (probes.filterMap id).length) * PENALTY_MS)
          / PROBE_COUNT := (Prod.mk.injEq _ _ _ _ ▸ hpair).1.symm
    have hav : a = (probes.filterMap id).sum / (probes.filterMap id).length :=
      (Prod.mk.injEq _ _ _ _ ▸ hpair).2.symm
    have hpos : 0 < (probes.filterMap id).length := Nat.pos_of_ne_zero hc
    refine ⟨hpos, by rw [hqv, hfail], hav, ?_, ?_, ?_, ?_⟩
    · rw [hqv, hfail]
      simp only [PROBE_COUNT, PENALTY_MS]
      omega
    · rw [hqv, hfail]
      simp only [PROBE_COUNT, PENALTY_MS]
      omega
    · rw [hav, Nat.mul_comm]
      exact Nat.div_mul_le_self _ _
    · rw [hav]
      have hexp : (probes.filterMap id).length
            * ((probes.filterMap id).sum / (probes.filterMap id).length + 1)
          = (probes.filterMap id).sum / (probes.filterMap id).length
              * (probes.filterMap id).length + (probes.filterMap id).length := by
        ring
      rw [hexp]
      exact Nat.lt_div_mul_add hpos

/-- Witness for C10 at the concrete round of two successes (5 ms, 7 ms) and
eight failures: the stored score 241 is the truncated quotient. -/
theorem scorer_integer_arithmetic_witness :
    241 = (([some 5, some 7, none, none, none, none, none, none, none, none]
        |>.filterMap id).sum
      + [some 5, some 7, none, none, none, none, none, none, none,
          none].countP (fun o => o.isNone) * PENALTY_MS) / PROBE_COUNT :=
  (scorer_integer_arithmetic
    [some 5, some 7, none, none, none, none, none, none, none, none]
    241 6 (by decide) (by decide)).2.1

lemma foldl_selStep_spec : ∀ (ts : List BestTarget) (m : BestTarget),
    ∃ pre post r, m :: ts = pre ++ r :: post ∧ ts.foldl selStep m = r ∧
      (∀ u ∈ m :: ts, r.score ≤ u.score) ∧ (∀ u ∈ pre, r.score < u.score) := by
  intro ts
  induction ts with
  | nil =>
    intro m
    exact ⟨[], [], m, rfl, rfl, by simp, by simp⟩
  | cons t ts ih =>
    intro m
    by_cases hc : m.score > t.score
    · have hstep : selStep m t = t := by simp [selStep, hc]
      obtain ⟨pre, post, r, hsplit, hfold, hmin, hstrict⟩ := ih t
      refine ⟨m :: pre, post, r, ?_, ?_, ?_, ?_⟩
      · exact congrArg (List.cons m) hsplit
      · rw [List.foldl_cons, hstep]
        exact hfold
      · intro u hu
        rcases List.mem_cons.mp hu with rfl | hu
        · have := hmin t (List.mem_cons_self t ts)
          omega
        · exact hmin u hu
      · intro u hu
        rcases List.mem_cons.mp hu with rfl | hu
        · have := hmin t (List.mem_cons_self t ts)
          omega
        · exact hstrict u hu
    · have hstep : selStep m t = m := by simp [selStep, hc]
      obtain ⟨pre, post, r, hsplit, hfold, hmin, hstrict⟩ := ih m
      cases pre with
      | nil =>
        have hm : m = r := ((List.cons.injEq _ _ _ _).mp hsplit).1
        rw [← hm] at hfold hmin
        refine ⟨[], t :: ts, m, rfl, ?_, ?_, by simp⟩
        · rw [List.foldl_cons, hstep]
          exact hfold
        · intro u hu
          rcases List.mem_cons.mp hu with rfl | hu
          · exact Nat.le_refl _
          · rcases List.mem_cons.mp hu with rfl | hu
            · omega
            · exact hmin u (List.mem_cons_of_mem m hu)
      | cons p pre =>
        have hinj := (List.cons.injEq _ _ _ _).mp hsplit
        have hp : p = m := hinj.1.symm
        have hts : ts = pre ++ r :: post := hinj.2
        have hrm : r.score < m.score := by
          have h0 := hstrict p (List.mem_cons_self p pre)
          rw [hp] at h0
          exact h0
        refine ⟨m :: t :: pre, post, r, ?_, ?_, ?_, ?_⟩
        · rw [hts]
          rfl
        · rw [List.foldl_cons, hstep]
          exact hfold
        · intro u hu
          rcases List.mem_cons.mp hu with rfl | hu
          · omega
          · rcases List.mem_cons.mp hu with rfl | hu
            · omega
            · exact hmin u (List.mem_cons_of_mem m hu)
        · intro u hu
          rcases List.mem_cons.mp hu with rfl | hu
          · omega
          · rcases List.mem_cons.mp hu with rfl | hu
            · omega
            · exact hstrict u (List.mem_cons_of_mem p hu)

/-- C2: when the round's list of scored targets (in configuration order) is
non-empty, `perform_scoring_check` returns a target with minimal score, and
every target listed before it scores strictly more — on an exact tie the
first in configuration order wins. -/
theorem selection_picks_first_min (results : List (Option BestTarget))
    (h : results.filterMap id ≠ []) :
    ∃ pre post r, results.filterMap id = pre ++ r :: post ∧
      perform_scoring_check results = some r ∧
      (∀ u ∈ results.filterMap id, r.score ≤ u.score) ∧
      (∀ u ∈ pre, r.score < u.score) := by
  rcases hscored : results.filterMap id with _ | ⟨t, ts⟩
  · exact absurd hscored h
  · obtain ⟨pre, post, r, hsplit, hfold, hmin, hstrict⟩ := foldl_selStep_spec ts t
    refine ⟨pre, post, r, hsplit, ?_, hmin, hstrict⟩
    rw [perform_scoring_check, hscored, min_by_score, hfold]

/-- Witness for C2: `tgtA` and `tgtB` both score 20, a third target is
unreachable; selection returns the first-listed of the tied pair. -/
theorem selection_picks_first_min_witness :
    ∃ pre post r,
      [some tgtA, none, some tgtB].filterMap id = pre ++ r :: post ∧
      perform_scoring_check [some tgtA, none, some tgtB] = some r ∧
      (∀ u ∈ [some tgtA, none, some tgtB].filterMap id, r.score ≤ u.score) ∧
      (∀ u ∈ pre, r.score < u.score) :=
  selection_picks_first_min [some tgtA, none, some tgtB] (by simp [tgtA])

/-- C4: a probing round in which every target failed to produce a score
writes nothing: the previously stored best target, `none` included, is
exactly unchanged. -/
theorem empty_round_keeps_best (results : List (Option BestTarget))
    (best : Option BestTarget) (h : ∀ r ∈ results, r = none) :
    update_best best (perform_scoring_check results) = best := by
  have hnil : results.filterMap id = [] := by
    rw [List.filterMap_eq_nil_iff]
    simpa using h
  rw [perform_scoring_check, hnil]
  rfl

/-- Witness for C4: after a fully failed round the stored `tgtA` survives. -/
theorem empty_round_keeps_best_witness :
    update_best (some tgtA) (perform_scoring_check [none, none]) = some tgtA :=
  empty_round_keeps_best [none, none] (some tgtA) (by simp)

/-- C8: the accept loop drops a connection exactly when the snapshot of the
shared state holds no best target; no forwarding work is spawned then. -/
theorem accept_drops_iff_no_target (snapshot : Option BestTarget) :
    accept_step snapshot = AcceptAction.drop ↔ snapshot = none := by
  cases snapshot <;> simp [accept_step]

/-- C3: for IPv4 source and destination, the header is exactly 28 bytes:
the 12-byte signature, `0x21`, `0x11`, the big-endian length `0x00 0x0C`,
then the 4 source IP octets, 4 destination IP octets and the two big-endian
ports. -/
theorem header_v4_layout (sip dip : List Nat) (sp dp : Nat)
    (hs : sip.length = 4) (hd : dip.length = 4) :
    (build_proxy_v2_header (SocketAddr.v4 sip sp) (SocketAddr.v4 dip dp)).length
        = 28 ∧
    (build_proxy_v2_header (SocketAddr.v4 sip sp) (SocketAddr.v4 dip dp)).take 16
      = [0x0D, 0x0A, 0x0D, 0x0A, 0x00, 0x0D, 0x0A, 0x51, 0x55, 0x49, 0x54, 0x0A,
          0x21, 0x11, 0x00, 0x0C] ∧
    (build_proxy_v2_header (SocketAddr.v4 sip sp) (SocketAddr.v4 dip dp)).drop 16
      = sip ++ dip ++ u16be sp ++ u16be dp := by
  have hpre : (proxy_v2_signature ++ [0x21, 0x11] ++ u16be 12).length = 16 := rfl
  refine ⟨?_, ?_, ?_⟩
  · show ((proxy_v2_signature ++ [0x21, 0x11] ++ u16be 12) ++
      (sip ++ dip ++ u16be sp ++ u16be dp)).length = 28
    simp [proxy_v2_signature, u16be, hs, hd]
  · show ((proxy_v2_signature ++ [0x21, 0x11] ++ u16be 12) ++
      (sip ++ dip ++ u16be sp ++ u16be dp)).take 16 = _
    rw [List.take_left' hpre]
    rfl
  · show ((proxy_v2_signature ++ [0x21, 0x11] ++ u16be 12) ++
      (sip ++ dip ++ u16be sp ++ u16be dp)).drop 16 = _
    exact List.drop_left' hpre

/-- Witness for C3 at a concrete address pair. -/
theorem header_v4_layout_witness :
    (build_proxy_v2_header (SocketAddr.v4 [192, 168, 1, 2] 51234)
      (SocketAddr.v4 [10, 0, 0, 7] 443)).length = 28 :=
  (header_v4_layout [192, 168, 1, 2] [10, 0, 0, 7] 51234 443
    (by decide) (by decide)).1

/-- C5: a mismatched address-family pair does not fail: the encoder emits
exactly 16 bytes — signature, `0x21`, family byte `0x00`, length
`0x00 0x00` — with no payload, in either order of the mismatch. -/
theorem header_mixed_families (ip4 ip6 : List Nat) (p4 p6 : Nat) :
    build_proxy_v2_header (SocketAddr.v4 ip4 p4) (SocketAddr.v6 ip6 p6)
      = [0x0D, 0x0A, 0x0D, 0x0A, 0x00, 0x0D, 0x0A, 0x51, 0x55, 0x49, 0x54, 0x0A,
          0x21, 0x00, 0x00, 0x00] ∧
    build_proxy_v2_header (SocketAddr.v6 ip6 p6) (SocketAddr.v4 ip4 p4)
      = [0x0D, 0x0A, 0x0D, 0x0A, 0x00, 0x0D, 0x0A, 0x51, 0x55, 0x49, 0x54, 0x0A,
          0x21, 0x00, 0x00, 0x00] ∧
    (build_proxy_v2_header (SocketAddr.v4 ip4 p4) (SocketAddr.v6 ip6 p6)).length
      = 16 :=
  ⟨rfl, rfl, rfl⟩

/-- C6: a decoder reading the IP bytes and big-endian port fields at their
payload offsets recovers the original source/destination IPs and ports,
for both the IPv4 and the IPv6 same-family cases. -/
theorem header_roundtrip (sip4 dip4 sip6 dip6 : List Nat) (sp4 dp4 sp6 dp6 : Nat)
    (hs4 : sip4.length = 4) (hd4 : dip4.length = 4)
    (hs6 : sip6.length = 16) (hd6 : dip6.length = 16)
    (hsp4 : sp4 < 65536) (hdp4 : dp4 < 65536)
    (hsp6 : sp6 < 65536) (hdp6 : dp6 < 65536) :
    decode_v4 (build_proxy_v2_header (SocketAddr.v4 sip4 sp4)
        (SocketAddr.v4 dip4 dp4))
      = (sip4, dip4, sp4, dp4) ∧
    decode_v6 (build_proxy_v2_header (SocketAddr.v6 sip6 sp6)
        (SocketAddr.v6 dip6 dp6))
      = (sip6, dip6, sp6, dp6) := by
  have hbe : ∀ p : Nat, p < 65536 → be2 (u16be p) = p := by
    intro p hp
    show p / 256 % 256 * 256 + p % 256 = p
    omega
  constructor
  · have a16 : build_proxy_v2_header (SocketAddr.v4 sip4 sp4)
          (SocketAddr.v4 dip4 dp4)
        = (proxy_v2_signature ++ [0x21, 0x11] ++ u16be 12) ++
            (sip4 ++ (dip4 ++ (u16be sp4 ++ u16be dp4))) := by
      simp [build_proxy_v2_header, List.append_assoc]
    have e16 : (build_proxy_v2_header (SocketAddr.v4 sip4 sp4)
        (SocketAddr.v4 dip4 dp4)).drop 16
        = sip4 ++ (dip4 ++ (u16be sp4 ++ u16be dp4)) := by
      rw [a16]
      exact List.drop_left' (by simp [proxy_v2_signature, u16be])
    have a20 : build_proxy_v2_header (SocketAddr.v4 sip4 sp4)
          (SocketAddr.v4 dip4 dp4)
        = ((proxy_v2_signature ++ [0x21, 0x11] ++ u16be 12) ++ sip4) ++
            (dip4 ++ (u16be sp4 ++ u16be dp4)) := by
      simp [build_proxy_v2_header, List.append_assoc]
    have e20 : (build_proxy_v2_header (SocketAddr.v4 sip4 sp4)
        (SocketAddr.v4 dip4 dp4)).drop 20
        = dip4 ++ (u16be sp4 ++ u16be dp4) := by
      rw [a20]
      exact List.drop_left' (by simp [proxy_v2_signature, u16be, hs4])
    have a24 : build_proxy_v2_header (SocketAddr.v4 sip4 sp4)
          (SocketAddr.v4 dip4 dp4)
        = (((proxy_v2_signature ++ [0x21, 0x11] ++ u16be 12) ++ sip4) ++ dip4) ++
            (u16be sp4 ++ u16be dp4) := by
      simp [build_proxy_v2_header, List.append_assoc]
    have e24 : (build_proxy_v2_header (SocketAddr.v4 sip4 sp4)
        (SocketAddr.v4 dip4 dp4)).drop 24 = u16be sp4 ++ u16be dp4 := by
      rw [a24]
      exact List.drop_left' (by simp [proxy_v2_signature, u16be, hs4, hd4])
    have e26 : (build_proxy_v2_header (SocketAddr.v4 sip4 sp4)
        (SocketAddr.v4 dip4 dp4)).drop 26 = u16be dp4 := by
      rw [a24, ← List.append_assoc]
      exact List.drop_left' (by simp [proxy_v2_signature, u16be, hs4, hd4])
    simp only [decode_v4, e16, e20, e24, e26]
    rw [List.take_left' hs4, List.take_left' hd4,
      List.take_left' (show (u16be sp4).length = 2 from rfl),
      show (u16be dp4).take 2 = u16be dp4 from rfl,
      hbe sp4 hsp4, hbe dp4 hdp4]
  · have a16 : build_proxy_v2_header (SocketAddr.v6 sip6 sp6)
          (SocketAddr.v6 dip6 dp6)
        = (proxy_v2_signature ++ [0x21, 0x21] ++ u16be 36) ++
            (sip6 ++ (dip6 ++ (u16be sp6 ++ u16be dp6))) := by
      simp [build_proxy_v2_header, List.append_assoc]
    have e16 : (build_proxy_v2_header (SocketAddr.v6 sip6 sp6)
        (SocketAddr.v6 dip6 dp6)).drop 16
        = sip6 ++ (dip6 ++ (u16be sp6 ++ u16be dp6)) := by
      rw [a16]
      exact List.drop_left' (by simp [proxy_v2_signature, u16be])
    have a32 : build_proxy_v2_header (SocketAddr.v6 sip6 sp6)
          (SocketAddr.v6 dip6 dp6)
        = ((proxy_v2_signature ++ [0x21, 0x21] ++ u16be 36) ++ sip6) ++
            (dip6 ++ (u16be sp6 ++ u16be dp6)) := by
      simp [build_proxy_v2_header, List.append_assoc]
    have e32 : (build_proxy_v2_header (SocketAddr.v6 sip6 sp6)
        (SocketAddr.v6 dip6 dp6)).drop 32
        = dip6 ++ (u16be sp6 ++ u16be dp6) := by
      rw [a32]
      exact List.drop_left' (by simp [proxy_v2_signature, u16be, hs6])
    have a48 : build_proxy_v2_header (SocketAddr.v6 sip6 sp6)
          (SocketAddr.v6 dip6 dp6)
        = (((proxy_v2_signature ++ [0x21, 0x21] ++ u16be 36) ++ sip6) ++ dip6) ++
            (u16be sp6 ++ u16be dp6) := by
      simp [build_proxy_v2_header, List.append_assoc]
    have e48 : (build_proxy_v2_header (SocketAddr.v6 sip6 sp6)
        (SocketAddr.v6 dip6 dp6)).drop 48 = u16be sp6 ++ u16be dp6 := by
      rw [a48]
      exact List.drop_left' (by simp [proxy_v2_signature, u16be, hs6, hd6])
    have e50 : (build_proxy_v2_header (SocketAddr.v6 sip6 sp6)
        (SocketAddr.v6 dip6 dp6)).drop 50 = u16be dp6 := by
      rw [a48, ← List.append_assoc]
      exact List.drop_left' (by simp [proxy_v2_signature, u16be, hs6, hd6])
    simp only [decode_v6, e16, e32, e48, e50]
    rw [List.take_left' hs6, List.take_left' hd6,
      List.take_left' (show (u16be sp6).length = 2 from rfl),
      show (u16be dp6).take 2 = u16be dp6 from rfl,
      hbe sp6 hsp6, hbe dp6 hdp6]

/-- Witness for C6: a concrete IPv4 pair round-trips. -/
theorem header_roundtrip_witness :
    decode_v4 (build_proxy_v2_header (SocketAddr.v4 [192, 168, 1, 2] 51234)
        (SocketAddr.v4 [10, 0, 0, 7] 443))
      = ([192, 168, 1, 2], [10, 0, 0, 7], 51234, 443) :=
  (header_roundtrip [192, 168, 1, 2] [10, 0, 0, 7]
    (List.replicate 16 2) (List.replicate 16 3) 51234 443 7 8
    (by decide) (by decide) (by decide) (by decide)
    (by decide) (by decide) (by decide) (by decide)).1

/-- C9: `handle_forward` writes a header only when `proxy_protocol` is
exactly `"v2"` and the client peer address is obtainable; an unobtainable
peer address or any other `proxy_protocol` value silently yields no header
bytes before the relay. -/
theorem header_only_when_v2_and_peer (p : Option String)
    (peer : Option SocketAddr) (src dst : SocketAddr) :
    header_written (some "v2") none dst = [] ∧
    (p ≠ some "v2" → header_written p peer dst = []) ∧
    header_written (some "v2") (some src) dst = build_proxy_v2_header src dst := by
  refine ⟨rfl, ?_, rfl⟩
  intro hp
  match p with
  | none => rfl
  | some s =>
    have hs : ¬ s = "v2" := fun h => hp (by rw [h])
    simp [header_written, hs]

/-- Witness for C9: `proxy_protocol: "v1"` yields no header bytes. -/
theorem header_only_when_v2_and_peer_witness :
    header_written (some "v1") (some (SocketAddr.v4 [127, 0, 0, 1] 5000))
      (SocketAddr.v4 [10, 0, 0, 1] 80) = [] :=
  (header_only_when_v2_and_peer (some "v1")
    (some (SocketAddr.v4 [127, 0, 0, 1] 5000))
    (SocketAddr.v4 [1, 1, 1, 1] 1)
    (SocketAddr.v4 [10, 0, 0, 1] 80)).2.1 (by decide)

end ForwardOptimal
